import Mathlib

/-!
Shallow embedding of `src/log_viewer.py` (function `view_logs`), a single-pass
reporting tool over chatbot conversation logs.

Modelling conventions:
* A JSON value parsed by `json.loads` becomes a Python object; we embed those
  objects as `JVal`.  JSON numeric literals are modelled as integers (`Int`);
  the numerically used fields (`question_length`, `response_length`) are
  integer lengths.  Python `bool` participates in arithmetic (`True == 1`).
* A Python dict is embedded as an association list `List (String × JVal)`;
  since `json.loads` never produces a dict with duplicate keys, the lists we
  quantify over that matter are duplicate-free, and lookup is first-match.
* Python exceptions that the source lets escape `view_logs` are modelled with
  `Except PyErr`; a bare `except:` in the source becomes a total function.
* `datetime.fromisoformat` / `strftime` are Python standard-library externals,
  so the development is parametric in a `DTModel` supplying them: `parse`
  returns `none` where `fromisoformat` raises `ValueError`.  Calling
  `fromisoformat` on a non-string raises `TypeError`; that is modelled
  explicitly (`parseIsoVal`).
* Floating point division in rate/average computations is modelled over `ℚ`.
-/

/-- Python values arising from `json.loads` (dicts embedded as assoc lists). -/
inductive JVal where
  | null : JVal
  | bool : Bool → JVal
  | num : Int → JVal
  | str : String → JVal
  | arr : List JVal → JVal
  | obj : List (String × JVal) → JVal

/-- One parsed log line: a Python dict (`log_entry`). -/
abbrev Record := List (String × JVal)

/-- Lookup `log.get(k)`: first-match lookup, `none` when the key is absent. -/
def rget (r : Record) (k : String) : Option JVal :=
  (r.find? (fun kv => kv.1 == k)).map (fun kv => kv.2)

/-- Lookup `log.get(k, d)` with a default. -/
def rgetD (r : Record) (k : String) (d : JVal) : JVal :=
  (rget r k).getD d

/-- Python truthiness of a value (`bool(x)`). -/
def truthy : JVal → Bool
  | .null => false
  | .bool b => b
  | .num n => n != 0
  | .str s => s != ""
  | .arr xs => !xs.isEmpty
  | .obj kvs => !kvs.isEmpty

/-- Exceptions that `view_logs` can let escape (abort the run). -/
inductive PyErr where
  | typeError : PyErr
  | attributeError : PyErr
deriving DecidableEq

/-- Whether `hash(x)` succeeds: Python lists and dicts are unhashable. -/
def hashable : Option JVal → Bool
  | some (.arr _) => false
  | some (.obj _) => false
  | _ => true

/-- The numeric value of a Python number: `bool` is a subtype of `int`
(`True == 1`, `False == 0`). -/
def numVal : JVal → Option Int
  | .num n => some n
  | .bool b => some (if b then 1 else 0)
  | _ => none

/-- Python `==` on the hashable values (`None`, `bool`, `int`, `str`) — the
only values that can become members of a Python `set` in this program.
Containers (unhashable, never set members) are mapped to `false` for
totality only. -/
def pyEq (a b : JVal) : Bool :=
  match a, b with
  | .null, .null => true
  | .str s, .str t => s == t
  | a, b =>
    match numVal a, numVal b with
    | some x, some y => x == y
    | _, _ => false

def pyEqO : Option JVal → Option JVal → Bool
  | none, none => true
  | some a, some b => pyEq a b
  | _, _ => false

/-- Insert into the running list of distinct elements of a Python `set`:
skipped when an equal element is already present. -/
def setInsert (acc : List (Option JVal)) (x : Option JVal) : List (Option JVal) :=
  if acc.any (fun y => pyEqO x y) then acc else x :: acc

/-- Python `len(set(xs))` for a list of hashable Python values. -/
def pyDistinctCount (xs : List (Option JVal)) : Nat :=
  (xs.foldl setInsert []).length

/-- The `session_id` values: `(log.get('session_id') for log in logs)`. -/
def sessionVals (logs : List Record) : List (Option JVal) :=
  logs.map (fun r => rget r "session_id")

/-- Line 43, `unique_sessions = len(set(log.get('session_id') for log in logs))`:
building the set raises `TypeError` when some `session_id` is unhashable. -/
def unique_sessions (logs : List Record) : Except PyErr Nat :=
  if (sessionVals logs).all hashable then
    .ok (pyDistinctCount (sessionVals logs))
  else
    .error .typeError

/-- Whether `log.get('error_occurred', False)` is truthy. -/
def isErrorRec (r : Record) : Bool :=
  truthy (rgetD r "error_occurred" (.bool false))

/-- Line 44, `errors = sum(1 for log in logs if log.get('error_occurred', False))`. -/
def error_count (logs : List Record) : Nat :=
  logs.countP isErrorRec

/-- Line 45, `error_rate = (errors / total * 100) if total > 0 else 0`. -/
def error_rate (logs : List Record) : ℚ :=
  if logs.length > 0 then
    (error_count logs : ℚ) / (logs.length : ℚ) * 100
  else 0

/-! ### Python `str()` of parsed-JSON values

`str(x)` on a dict/list uses `repr` on the elements.  String `repr` is
modelled with single quotes and no escaping (the simple case; Python escapes
quotes/backslashes inside, which no claim exercises). -/

mutual
/-- Python `repr(x)` for a value produced by `json.loads`. -/
def pyRepr : JVal → String
  | .null => "None"
  | .bool true => "True"
  | .bool false => "False"
  | .num n => toString n
  | .str s => "\x27" ++ s ++ "\x27"
  | .arr xs => "[" ++ pyReprList xs ++ "]"
  | .obj kvs => "\x7b" ++ pyReprObj kvs ++ "\x7d"

/-- Comma-separated `repr`s of list elements. -/
def pyReprList : List JVal → String
  | [] => ""
  | [x] => pyRepr x
  | x :: y :: xs => pyRepr x ++ ", " ++ pyReprList (y :: xs)

/-- Comma-separated `'key': repr(value)` pairs of a dict. -/
def pyReprObj : List (String × JVal) → String
  | [] => ""
  | [kv] => "\x27" ++ kv.1 ++ "\x27: " ++ pyRepr kv.2
  | kv :: kw :: kvs => "\x27" ++ kv.1 ++ "\x27: " ++ pyRepr kv.2 ++ ", " ++ pyReprObj (kw :: kvs)
end

/-- Python `str(x)`: identity on strings, `repr`-based otherwise. -/
def pyStr : JVal → String
  | .str s => s
  | v => pyRepr v

/-! ### Date/time externals

`datetime.fromisoformat` and `strftime` are Python standard-library
externals; the development is parametric in a model of them. -/

/-- Model of the `datetime` externals used by `view_logs`: `parse` is
`fromisoformat` on a string (`none` = `ValueError`); `fmtMinute` is
`strftime('%Y-%m-%d %H:%M')`; `fmtSecond` is `strftime('%Y-%m-%d %H:%M:%S')`.
The instant type is `Int` (any linearly ordered carrier works for
`min`/`max`). -/
structure DTModel where
  parse : String → Option Int
  fmtMinute : Int → String
  fmtSecond : Int → String

/-- A degenerate but legal `DTModel` (a parser that rejects everything),
used to evaluate the development at concrete inputs that never need a
successful parse. -/
def dt0 : DTModel :=
  { parse := fun _ => none, fmtMinute := fun _ => "", fmtSecond := fun _ => "" }

/-- Calling `datetime.fromisoformat(v)` on an arbitrary value: a non-string raises
`TypeError`, which inside a `try` is caught exactly like a `ValueError`;
both failure modes collapse to `none` here (every call site catches them). -/
def parseIsoVal (M : DTModel) : JVal → Option Int
  | .str s => M.parse s
  | _ => none

/-- Line 52, `timestamps = [log.get('timestamp') for log in logs if log.get('timestamp')]`:
the present *and truthy* timestamp values. -/
def presentTimestamps (logs : List Record) : List JVal :=
  logs.filterMap (fun r =>
    match rget r "timestamp" with
    | some v => if truthy v then some v else none
    | none => none)

/-- Lines 52–59, the date-range block.  Result encoding:
`none` = the `if timestamps:` guard failed, no date-range line is produced;
`some none` = `except:` path, the line `Date Range: Unknown`;
`some (some s)` = the line `Date Range: <min> to <max>`.
The whole `try` body (list comprehension, `min`, `max`, `strftime`) is
all-or-nothing: one failed parse discards every parsed date. -/
def date_range (M : DTModel) (logs : List Record) : Option (Option String) :=
  let ts := presentTimestamps logs
  if ts.isEmpty then none
  else
    match ts.mapM (parseIsoVal M) with
    | none => some none
    | some [] => some none
    | some (d :: ds) =>
        some (some (M.fmtMinute (ds.foldl min d) ++ " to " ++ M.fmtMinute (ds.foldl max d)))

/-! ### Average lengths (lines 62–63) -/

/-- Python `int + x` for a value read from a log field: Python arithmetic accepts
numbers and bools, and raises `TypeError` on anything else (including
`None`, which `log.get(k, 0)` returns when the key is present with value
`null`). -/
def asNum : JVal → Except PyErr Int
  | .num n => .ok n
  | .bool b => .ok (if b then 1 else 0)
  | _ => .error .typeError

/-- The sum `sum(log.get(k, 0) for log in logs)`: left-to-right, the first
non-numeric addend raises `TypeError` out of the whole run. -/
def sumField (k : String) : List Record → Except PyErr Int
  | [] => .ok 0
  | r :: rs =>
    match asNum (rgetD r k (.num 0)) with
    | .error e => .error e
    | .ok n =>
      match sumField k rs with
      | .error e => .error e
      | .ok s => .ok (n + s)

/-- Lines 62–63, `avg_question_length` / `avg_response_length`:
`sum(...) / total if total > 0 else 0`. -/
def avgField (k : String) (logs : List Record) : Except PyErr ℚ :=
  match sumField k logs with
  | .error e => .error e
  | .ok s => .ok (if logs.length > 0 then (s : ℚ) / (logs.length : ℚ) else 0)

/-! ### Data availability analysis (lines 72–87) -/

/-- The seven fixed data-source names of line 81. -/
def fixedSources : List String :=
  ["metadata_cache", "order_data", "asin_report", "brand_report",
   "gm_report", "underper_report", "brand_map"]

/-- Lines 73–79 for one record: when `log.get('data_availability')` is
truthy, iterate `log['data_availability'].items()` and emit one
`(file_name, bool(available))` event per entry; a truthy non-dict value has
no `.items()` and raises `AttributeError`; an absent or falsy value
contributes nothing. -/
def recordAvailEvents (r : Record) : Except PyErr (List (String × Bool)) :=
  match rget r "data_availability" with
  | none => .ok []
  | some v =>
    if truthy v then
      match v with
      | .obj kvs => .ok (kvs.map (fun kv => (kv.1, truthy kv.2)))
      | _ => .error .attributeError
    else .ok []

/-- The whole Counter-building loop of lines 72–79, as the concatenated
event stream (`Counter[f"name_available"] += 1` events in order). -/
def availEvents : List Record → Except PyErr (List (String × Bool))
  | [] => .ok []
  | r :: rs =>
    match recordAvailEvents r with
    | .error e => .error e
    | .ok es =>
      match availEvents rs with
      | .error e => .error e
      | .ok rest => .ok (es ++ rest)

/-- Counter entry `data_availability_counts[f"{name}_available"]`. -/
def availOf (name : String) (evs : List (String × Bool)) : Nat :=
  evs.countP (fun e => e.1 == name && e.2)

/-- Counter entry `data_availability_counts[f"{name}_missing"]`. -/
def missingOf (name : String) (evs : List (String × Bool)) : Nat :=
  evs.countP (fun e => e.1 == name && !e.2)

/-- Lines 81–87: one report line `(name, available, total, rate)` per fixed
source with `total = available + missing > 0`; sources with zero mentions are
skipped. -/
def availReport (evs : List (String × Bool)) : List (String × Nat × Nat × ℚ) :=
  fixedSources.filterMap (fun name =>
    if 0 < availOf name evs + missingOf name evs then
      some (name, availOf name evs, availOf name evs + missingOf name evs,
        (availOf name evs : ℚ) /
          ((availOf name evs + missingOf name evs : Nat) : ℚ) * 100)
    else none)

/-! ### Recent conversations (lines 94–111) and error analysis (lines 114–129) -/

/-- Line 94, `recent_logs = logs[-5:] if len(logs) >= 5 else logs`. -/
def recent_logs (logs : List Record) : List Record :=
  if 5 ≤ logs.length then logs.drop (logs.length - 5) else logs

/-- The last `n` elements of a list (Python `l[-n:]` for `0 < n ≤ len(l)`). -/
def lastSlice (n : Nat) (l : List Record) : List Record :=
  l.drop (l.length - n)

/-- Lines 96–101 (and identically 121–126): format one record's timestamp.
`timestamp = log.get('timestamp', 'Unknown')`; `fromisoformat` +
`strftime('%Y-%m-%d %H:%M:%S')` under `try`; on failure
`timestamp[:19] if timestamp else 'Unknown'` — slicing a truthy
non-sliceable value (number, bool, dict) raises `TypeError` *inside* the
`except:` block, which escapes the run; slicing a list is legal and the
resulting value is rendered by the f-string via `str()`. -/
def fmtTimestamp (M : DTModel) (r : Record) : Except PyErr String :=
  match rgetD r "timestamp" (.str "Unknown") with
  | .str s =>
    match M.parse s with
    | some d => .ok (M.fmtSecond d)
    | none => .ok (if s != "" then (s.take 19) else "Unknown")
  | .arr xs => .ok (pyRepr (.arr (xs.take 19)))
  | v => if truthy v then .error .typeError else .ok "Unknown"

/-- Truncation `text[:budget]` followed by `'...' if len(text) > budget else ''` (lines
108–109 with budget 100, line 129 with budget 80): legal on strings and
lists, `TypeError` on anything else (including `None` and numbers). -/
def truncDisplay (budget : Nat) : JVal → Except PyErr String
  | .str s => .ok ((s.take budget) ++ (if budget < s.length then "..." else ""))
  | .arr xs => .ok (pyRepr (.arr (xs.take budget)) ++ (if budget < xs.length then "..." else ""))
  | _ => .error .typeError

/-- One printed entry of the recent-conversations block. -/
structure RecentEntry where
  time : String
  q : String
  a : String
  err : Bool
deriving DecidableEq

/-- Lines 96–111 for one record of the recent view (the per-record texts the
block prints, in evaluation order: time, question, response, error flag). -/
def mkRecentEntry (M : DTModel) (r : Record) : Except PyErr RecentEntry :=
  match fmtTimestamp M r with
  | .error e => .error e
  | .ok t =>
    match truncDisplay 100 (rgetD r "user_question" (.str "No question")) with
    | .error e => .error e
    | .ok q =>
      match truncDisplay 100 (rgetD r "ai_response" (.str "No response")) with
      | .error e => .error e
      | .ok a => .ok ⟨t, q, a, isErrorRec r⟩

/-- Line 95, `for i, log in enumerate(reversed(recent_logs), 1)`. -/
def recentEntries (M : DTModel) : List Record → Except PyErr (List RecentEntry)
  | [] => .ok []
  | r :: rs =>
    match mkRecentEntry M r with
    | .error e => .error e
    | .ok en =>
      match recentEntries M rs with
      | .error e => .error e
      | .ok ens => .ok (en :: ens)

/-- The recent view in display order: reverse of `recent_logs`. -/
def recentView (logs : List Record) : List Record :=
  (recent_logs logs).reverse

/-- One printed line of the error-analysis block (line 129): timestamp and
truncated question only — `ai_response` is not displayed there. -/
structure ErrorEntry where
  time : String
  q : String
deriving DecidableEq

/-- Lines 121–129 for one record of the error view. -/
def mkErrorEntry (M : DTModel) (r : Record) : Except PyErr ErrorEntry :=
  match fmtTimestamp M r with
  | .error e => .error e
  | .ok t =>
    match truncDisplay 80 (rgetD r "user_question" (.str "No question")) with
    | .error e => .error e
    | .ok q => .ok ⟨t, q⟩

/-- Line 119, `error_logs = [log for log in logs if log.get('error_occurred', False)]`. -/
def error_logs (logs : List Record) : List Record :=
  logs.filter isErrorRec

def errorEntries (M : DTModel) : List Record → Except PyErr (List ErrorEntry)
  | [] => .ok []
  | r :: rs =>
    match mkErrorEntry M r with
    | .error e => .error e
    | .ok en =>
      match errorEntries M rs with
      | .error e => .error e
      | .ok ens => .ok (en :: ens)

/-- Lines 114–129: the error-analysis block is produced only when
`errors > 0`. -/
def errorBlock (M : DTModel) (logs : List Record) : Except PyErr (Option (List ErrorEntry)) :=
  if error_count logs > 0 then
    match errorEntries M (error_logs logs) with
    | .error e => .error e
    | .ok es => .ok (some es)
  else .ok none

/-! ### Export (lines 137–158)

`pd.DataFrame(logs)` builds a table whose columns are the union of the
records' keys in order of first appearance and whose row count is
`len(logs)`; a record without a given column gets the missing-value
placeholder `NaN` (a float, and **truthy** in Python).  `df.empty` is true
when either axis has length 0 — in particular for a non-empty list of
records that all have zero keys.  Only the pieces of the table that the
specification constrains are embedded: shape, column list, and the
post-processed `data_availability` column. -/

/-- Append the keys of one record to the running column list, keeping first
occurrences only. -/
def addKeys (acc : List String) (ks : List String) : List String :=
  ks.foldl (fun a k => if a.contains k then a else a ++ [k]) acc

/-- DataFrame column list: union of keys across records, in order of first
appearance. -/
def keyUnion (logs : List Record) : List String :=
  logs.foldl (fun a r => addKeys a (r.map (fun kv => kv.1))) []

/-- Pandas `df.empty`: some axis has length 0. -/
def dfEmpty (logs : List Record) : Bool :=
  logs.isEmpty || (keyUnion logs).isEmpty

/-- Lines 144–146, the cell of the `data_availability` column for one
record after `apply(lambda x: str(x) if x else '{}')`: a present truthy
value is rendered with `str`; a present falsy value becomes `'{}'`; an
*absent* field was filled with `NaN` by the DataFrame constructor, and
`NaN` is truthy, so `str(nan)` gives `'nan'`. -/
def availCellOf (r : Record) : String :=
  match rget r "data_availability" with
  | some v => if truthy v then pyStr v else "\x7b\x7d"
  | none => "nan"

/-- The embedded slice of the exported CSV. -/
structure ExportTable where
  cols : List String
  nRows : Nat
  availCol : Option (List String)
deriving DecidableEq

/-- Lines 137–158: `none` is the `else` branch printing `No data to
export`; otherwise the table is written, with the `data_availability`
column stringified when that column exists. -/
def exportStage (logs : List Record) : Option ExportTable :=
  if dfEmpty logs then none
  else
    some
      { cols := keyUnion logs
        nRows := logs.length
        availCol :=
          if (keyUnion logs).contains "data_availability" then
            some (logs.map availCellOf)
          else none }

/-! ### The whole run -/

/-- Everything `view_logs` computes after the Loader, in source order. -/
structure Report where
  total : Nat
  uniqueSessions : Nat
  errors : Nat
  errorRate : ℚ
  dateRange : Option (Option String)
  avgQ : ℚ
  avgR : ℚ
  avail : List (String × Nat × Nat × ℚ)
  recent : List RecentEntry
  errBlock : Option (List ErrorEntry)
  exported : Option ExportTable
deriving DecidableEq

/-- Lines 35–158 of `view_logs`, after the Loader produced `logs`: each
stage in source order; the first uncaught Python exception aborts the run. -/
def view_logs (M : DTModel) (logs : List Record) : Except PyErr Report :=
  match unique_sessions logs with
  | .error e => .error e
  | .ok u =>
    match avgField "question_length" logs with
    | .error e => .error e
    | .ok aq =>
      match avgField "response_length" logs with
      | .error e => .error e
      | .ok ar =>
        match availEvents logs with
        | .error e => .error e
        | .ok evs =>
          match recentEntries M (recentView logs) with
          | .error e => .error e
          | .ok recent =>
            match errorBlock M logs with
            | .error e => .error e
            | .ok eb =>
              .ok
                { total := logs.length
                  uniqueSessions := u
                  errors := error_count logs
                  errorRate := error_rate logs
                  dateRange := date_range M logs
                  avgQ := aq
                  avgR := ar
                  avail := availReport evs
                  recent := recent
                  errBlock := eb
                  exported := exportStage logs }

/-! ### Well-typed records

A sufficient (and, per field, tight) shape condition on a loaded record
under which no downstream stage of `view_logs` raises: each present field is
of a type every access of it tolerates.  Absent fields are always fine. -/

/-- Field `session_id` must be hashable (line 43 builds a `set` of them). -/
def sessionOK (r : Record) : Bool :=
  hashable (rget r "session_id")

/-- A length field must be absent or numeric (lines 62–63 sum them);
Python `bool` counts as numeric. -/
def numFieldOK : Option JVal → Bool
  | none => true
  | some (.num _) => true
  | some (.bool _) => true
  | _ => false

/-- Field `data_availability` must be a dict whenever it is truthy (line 75 calls
`.items()` on it). -/
def availFieldOK : Option JVal → Bool
  | none => true
  | some (.obj _) => true
  | some v => !truthy v

/-- Field `timestamp` must be a string, a list, or falsy: the `except:` fallback
slices it when truthy (lines 101 and 126). -/
def tsFieldOK : Option JVal → Bool
  | none => true
  | some (.str _) => true
  | some (.arr _) => true
  | some v => !truthy v

/-- Fields `user_question` / `ai_response` must be absent or sliceable (lines
108–109 and 129 slice them unconditionally). -/
def textFieldOK : Option JVal → Bool
  | none => true
  | some (.str _) => true
  | some (.arr _) => true
  | _ => false

/-- All field-shape conditions for one record. -/
def fieldOK (r : Record) : Bool :=
  sessionOK r
    && numFieldOK (rget r "question_length")
    && numFieldOK (rget r "response_length")
    && availFieldOK (rget r "data_availability")
    && tsFieldOK (rget r "timestamp")
    && textFieldOK (rget r "user_question")
    && textFieldOK (rget r "ai_response")

/-! ## Helper lemmas -/

set_option maxRecDepth 8000

/-- Each `set` insertion grows the distinct list by at most one. -/
theorem foldl_setInsert_length (xs : List (Option JVal)) :
    ∀ acc, (xs.foldl setInsert acc).length ≤ acc.length + xs.length := by
  induction xs with
  | nil => simp
  | cons x xs ih =>
    intro acc
    simp only [List.foldl_cons, List.length_cons]
    have h1 : (setInsert acc x).length ≤ acc.length + 1 := by
      unfold setInsert
      split
      · omega
      · simp
    have h2 := ih (setInsert acc x)
    omega

/-! ## C5 — error count and error rate -/

/-- C5. For every loaded record sequence, `errors` is the count of records
whose `error_occurred` flag is truthy (default false when absent),
`errors ≤ total`, `error_rate = errors / total * 100` with `error_rate = 0`
when `total = 0`, and `0 ≤ error_rate ≤ 100`. -/
theorem error_stats_spec (logs : List Record) :
    error_count logs = logs.countP isErrorRec ∧
    error_count logs ≤ logs.length ∧
    error_rate logs =
      (if 0 < logs.length then (error_count logs : ℚ) / (logs.length : ℚ) * 100 else 0) ∧
    0 ≤ error_rate logs ∧ error_rate logs ≤ 100 := by
  refine ⟨rfl, List.countP_le_length _, rfl, ?_, ?_⟩
  · unfold error_rate
    split
    · positivity
    · norm_num
  · unfold error_rate
    split
    · rename_i h
      have hc : (error_count logs : ℚ) ≤ (logs.length : ℚ) := by
        exact_mod_cast List.countP_le_length (l := logs) isErrorRec
      have hl : (0 : ℚ) < (logs.length : ℚ) := by exact_mod_cast h
      rw [div_mul_eq_mul_div, div_le_iff₀ hl]
      nlinarith
    · norm_num

/-! ## C8 — recent view -/

/-- C8. For every loaded record sequence, the recent view has length
`min 5 total` and is the reverse of the last `min 5 total` records of the
original sequence. -/
theorem recent_view_spec (logs : List Record) :
    (recentView logs).length = min 5 logs.length ∧
    recentView logs = (lastSlice (min 5 logs.length) logs).reverse := by
  unfold recentView recent_logs lastSlice
  by_cases h : 5 ≤ logs.length
  · rw [if_pos h, min_eq_left h]
    constructor
    · rw [List.length_reverse, List.length_drop]
      omega
    · rfl
  · rw [if_neg h]
    have hm : min 5 logs.length = logs.length := by omega
    rw [hm, Nat.sub_self, List.drop_zero]
    exact ⟨List.length_reverse logs, rfl⟩

/-! ## C7 — unique sessions -/

/-- C7. Whenever line 43 computes a value (every `session_id` hashable),
`unique_sessions` is the number of Python-distinct `session_id` values with
all missing ids collapsing to the single shared value `None`, and
`unique_sessions ≤ total`. -/
theorem unique_sessions_spec (logs : List Record) (u : Nat)
    (h : unique_sessions logs = .ok u) :
    u = pyDistinctCount (sessionVals logs) ∧ u ≤ logs.length := by
  unfold unique_sessions at h
  split at h
  · cases h
    refine ⟨rfl, ?_⟩
    unfold pyDistinctCount
    have h1 := foldl_setInsert_length (sessionVals logs) []
    have h2 : (sessionVals logs).length = logs.length := List.length_map _ _
    simp only [List.length_nil] at h1
    omega
  · cases h

/-- Witness for `unique_sessions_spec`: three records, two sharing an id and
one missing it, give two distinct sessions. -/
theorem unique_sessions_witness :
    (2 : Nat) =
      pyDistinctCount
        (sessionVals [[("session_id", JVal.str "a")], [("session_id", JVal.str "a")], []]) ∧
    (2 : Nat) ≤
      ([[("session_id", JVal.str "a")], [("session_id", JVal.str "a")], []] : List Record).length :=
  unique_sessions_spec _ 2 rfl

/-! ## C9 — error view -/

/-- C9. For every loaded record sequence, the error view is exactly the
subsequence of records with truthy `error_occurred` in original order, its
length is the reported `errors` count, and whenever the error-analysis block
completes it is present exactly when `errors > 0`. -/
theorem error_view_spec (M : DTModel) (logs : List Record) (ob : Option (List ErrorEntry))
    (h : errorBlock M logs = .ok ob) :
    error_logs logs = logs.filter isErrorRec ∧
    (error_logs logs).length = error_count logs ∧
    (ob.isSome ↔ 0 < error_count logs) := by
  refine ⟨rfl, ?_, ?_⟩
  · unfold error_logs error_count
    exact (List.countP_eq_length_filter _ _).symm
  · unfold errorBlock at h
    split at h
    · rename_i hpos
      split at h
      · cases h
      · cases h
        simpa using hpos
    · rename_i hneg
      cases h
      simpa using hneg

/-- Witness for `error_view_spec`: one record flagged as an error. -/
theorem error_view_witness :
    error_logs [[("error_occurred", JVal.bool true)]] =
      List.filter isErrorRec [[("error_occurred", JVal.bool true)]] ∧
    (error_logs [[("error_occurred", JVal.bool true)]]).length =
      error_count [[("error_occurred", JVal.bool true)]] ∧
    ((some [⟨"Unknown", "No question"⟩] : Option (List ErrorEntry)).isSome ↔
      0 < error_count [[("error_occurred", JVal.bool true)]]) :=
  error_view_spec dt0 _ _ rfl

/-! ## C2 — date range -/

/-- A single failing element makes `Option`-valued `mapM` fail. -/
theorem mapM_option_eq_none_of_mem {α β : Type} (f : α → Option β) :
    ∀ (l : List α) (a : α), a ∈ l → f a = none → l.mapM f = none := by
  intro l
  induction l with
  | nil => intro a ha _; cases ha
  | cons x xs ih =>
    intro a ha hfa
    rw [List.mapM_cons]
    rcases List.mem_cons.mp ha with rfl | hmem
    · rw [hfa]
      rfl
    · cases hfx : f x with
      | none => rfl
      | some b =>
        rw [ih a hmem hfa]
        rfl

/-- When every element succeeds, `Option`-valued `mapM` succeeds with the
same length. -/
theorem mapM_option_isSome_of_all {α β : Type} (f : α → Option β) :
    ∀ l : List α, (∀ a ∈ l, (f a).isSome) →
      ∃ bs, l.mapM f = some bs ∧ bs.length = l.length := by
  intro l
  induction l with
  | nil => intro _; exact ⟨[], rfl, rfl⟩
  | cons x xs ih =>
    intro h
    obtain ⟨b, hb⟩ := Option.isSome_iff_exists.mp (h x (List.mem_cons_self x xs))
    obtain ⟨bs, hbs, hlen⟩ := ih (fun a ha => h a (List.mem_cons_of_mem _ ha))
    refine ⟨b :: bs, ?_, by simp [hlen]⟩
    rw [List.mapM_cons, hb, hbs]
    rfl

/-- C2, amended. When no record has a present truthy `timestamp`, the
date-range line is omitted entirely (and no exception is raised) — it is
*not* reported as unknown; when at least one is present, the range is
computed all-or-nothing: one unparsable timestamp anywhere makes the whole
range `Unknown`, and if every one parses a concrete range is reported. -/
theorem date_range_spec (M : DTModel) (logs : List Record) :
    (presentTimestamps logs = [] → date_range M logs = none) ∧
    (presentTimestamps logs ≠ [] →
      (∀ v ∈ presentTimestamps logs, (parseIsoVal M v).isSome) →
        ∃ s, date_range M logs = some (some s)) ∧
    (∀ v ∈ presentTimestamps logs, parseIsoVal M v = none →
        date_range M logs = some none) := by
  refine ⟨?_, ?_, ?_⟩
  · intro h
    unfold date_range
    simp [h]
  · intro hne hall
    unfold date_range
    rw [if_neg (by simpa [List.isEmpty_iff] using hne)]
    obtain ⟨bs, hbs, hlen⟩ := mapM_option_isSome_of_all (parseIsoVal M) _ hall
    rw [hbs]
    cases bs with
    | nil =>
      exfalso
      exact hne (List.length_eq_zero.mp hlen.symm)
    | cons d ds => exact ⟨_, rfl⟩
  · intro v hv hfail
    unfold date_range
    rw [if_neg (by simpa [List.isEmpty_iff] using List.ne_nil_of_mem hv)]
    rw [mapM_option_eq_none_of_mem (parseIsoVal M) _ v hv hfail]

/-- Witness for `date_range_spec`: one unparsable timestamp string makes the
range `Unknown`. -/
theorem date_range_witness :
    date_range dt0 [[("timestamp", JVal.str "x")]] = some none :=
  (date_range_spec dt0 [[("timestamp", JVal.str "x")]]).2.2 (JVal.str "x")
    (List.mem_singleton.mpr rfl) rfl

/-- C2, counterexample. A sequence whose single record has no
`timestamp` at all: the claim says the date range is reported as unknown,
but `view_logs` omits the date-range line entirely (the `if timestamps:`
guard fails), which is a different observable than printing
`Date Range: Unknown`. -/
theorem date_range_all_absent_not_unknown :
    date_range dt0 [[("session_id", JVal.str "a")]] = none ∧
    date_range dt0 [[("session_id", JVal.str "a")]] ≠ some none := by
  refine ⟨rfl, ?_⟩
  intro h
  rw [show date_range dt0 [[("session_id", JVal.str "a")]] = none from rfl] at h
  cases h

/-! ## C3 — export guard -/

/-- Membership in the running column list after adding one record's keys. -/
theorem mem_addKeys (k : String) (ks : List String) :
    ∀ acc, k ∈ addKeys acc ks ↔ (k ∈ acc ∨ k ∈ ks) := by
  induction ks with
  | nil => intro acc; simp [addKeys]
  | cons k' ks ih =>
    intro acc
    show k ∈ addKeys (if acc.contains k' then acc else acc ++ [k']) ks ↔ _
    rw [ih]
    by_cases hc : acc.contains k'
    · rw [if_pos hc]
      have hk' : k' ∈ acc := List.elem_iff.mp hc
      constructor
      · rintro (h | h)
        · exact Or.inl h
        · exact Or.inr (List.mem_cons_of_mem _ h)
      · rintro (h | h)
        · exact Or.inl h
        · rcases List.mem_cons.mp h with rfl | h
          · exact Or.inl hk'
          · exact Or.inr h
    · rw [if_neg hc]
      simp [List.mem_append, List.mem_cons, or_assoc]
  
/-- A column name appears in the DataFrame exactly when some record has it. -/
theorem mem_keyUnion (k : String) (logs : List Record) :
    k ∈ keyUnion logs ↔ ∃ r ∈ logs, k ∈ r.map (fun kv => kv.1) := by
  have main : ∀ acc, k ∈ logs.foldl (fun a r => addKeys a (r.map (fun kv => kv.1))) acc ↔
      (k ∈ acc ∨ ∃ r ∈ logs, k ∈ r.map (fun kv => kv.1)) := by
    induction logs with
    | nil => intro acc; simp
    | cons r rs ih =>
      intro acc
      rw [List.foldl_cons, ih, mem_addKeys]
      simp [List.mem_cons, or_assoc]
  rw [keyUnion, main]
  simp

/-- The DataFrame has no columns exactly when every record is the empty
mapping. -/
theorem keyUnion_eq_nil (logs : List Record) :
    keyUnion logs = [] ↔ ∀ r ∈ logs, r = [] := by
  rw [List.eq_nil_iff_forall_not_mem]
  constructor
  · intro h r hr
    rcases r with _ | ⟨kv, tl⟩
    · rfl
    · exfalso
      exact h kv.1 ((mem_keyUnion kv.1 logs).mpr ⟨kv :: tl, hr, by simp⟩)
  · intro h k hk
    obtain ⟨r, hr, hkr⟩ := (mem_keyUnion k logs).mp hk
    rw [h r hr] at hkr
    simp at hkr

/-- C3, amended. Even with at least one loaded record, the
`no data to export` branch is reachable: it is taken exactly when the
DataFrame has zero columns, i.e. when every loaded record is an empty
mapping.  (The claim's assertion that the branch requires an empty record
sequence is false.) -/
theorem export_skip_spec (logs : List Record) (h : logs ≠ []) :
    (exportStage logs = none ↔ keyUnion logs = []) ∧
    (keyUnion logs = [] ↔ ∀ r ∈ logs, r = []) := by
  refine ⟨?_, keyUnion_eq_nil logs⟩
  have hne : logs.isEmpty = false := by
    cases logs with
    | nil => exact absurd rfl h
    | cons a l => rfl
  unfold exportStage dfEmpty
  rw [hne]
  simp only [Bool.false_or]
  constructor
  · intro hnone
    by_cases hk : (keyUnion logs).isEmpty = true
    · exact List.isEmpty_iff.mp hk
    · rw [if_neg hk] at hnone
      cases hnone
  · intro hk
    rw [if_pos (by simp [hk])]

/-- Witness for `export_skip_spec` at the one-empty-record sequence. -/
theorem export_skip_witness :
    (exportStage [([] : Record)] = none ↔ keyUnion [([] : Record)] = []) ∧
    (keyUnion [([] : Record)] = [] ↔ ∀ r ∈ [([] : Record)], r = []) :=
  export_skip_spec _ (by simp)

/-- C3, counterexample. The Loader accepts the line `{}`, so a run can
reach export with one valid record that has no fields; `pd.DataFrame([{}])`
has a zero-length column axis, `df.empty` is true, and the
`no data to export` branch is taken even though the record sequence is
non-empty. -/
theorem export_skip_reachable :
    ([([] : List (String × JVal))] : List Record) ≠ [] ∧
    exportStage [([] : Record)] = none := by
  exact ⟨by simp, rfl⟩

/-! ## C4 — the exported `data_availability` cell -/

/-- C4, amended. In the exported table the `data_availability` cell of a
record is the literal text of its mapping when present and truthy, the
empty-mapping text when present and falsy, and the text `nan` of the
DataFrame's missing-value placeholder (`NaN`, which is truthy in Python)
when the field is absent — not the empty-mapping text the claim states. -/
theorem avail_cell_spec :
    (∀ r v, rget r "data_availability" = some v → truthy v = true →
        availCellOf r = pyStr v) ∧
    (∀ r v, rget r "data_availability" = some v → truthy v = false →
        availCellOf r = "\x7b\x7d") ∧
    (∀ r, rget r "data_availability" = none → availCellOf r = "nan") ∧
    (∀ logs t, exportStage logs = some t →
        ("data_availability" ∈ keyUnion logs → t.availCol = some (logs.map availCellOf)) ∧
        ("data_availability" ∉ keyUnion logs → t.availCol = none)) := by
  refine ⟨?_, ?_, ?_, ?_⟩
  · intro r v hv ht
    unfold availCellOf
    rw [hv]
    simp [ht]
  · intro r v hv ht
    unfold availCellOf
    rw [hv]
    simp [ht]
  · intro r hv
    unfold availCellOf
    rw [hv]
  · intro logs t ht
    unfold exportStage at ht
    split at ht
    · cases ht
    · cases ht
      constructor
      · intro hmem
        simp only
        rw [if_pos (List.elem_iff.mpr hmem)]
      · intro hmem
        simp only
        rw [if_neg (fun hc => hmem (List.elem_iff.mp hc))]

/-- Witness for `avail_cell_spec`: a record without the field gets `nan`. -/
theorem avail_cell_witness : availCellOf ([] : Record) = "nan" :=
  avail_cell_spec.2.2.1 [] rfl

/-- C4, counterexample. Two loaded records, the second carrying
`data_availability` (so the column exists): the first record's cell is the
text `nan`, not the empty-mapping text `{}` the claim requires for an
absent field. -/
theorem avail_cell_absent_is_nan :
    exportStage [[("session_id", JVal.str "a")],
                 [("data_availability", JVal.obj [("order_data", JVal.bool true)])]] =
      some { cols := ["session_id", "data_availability"], nRows := 2,
             availCol := some ["nan", "\x7b\x27order_data\x27: True\x7d"] } ∧
    ("nan" : String) ≠ "\x7b\x7d" := by
  refine ⟨rfl, ?_⟩
  decide

/-! ## C6 — data-availability report -/

/-- C6. For every loaded record sequence whose Counter loop completes and
every fixed data-source name: a source with zero total mentions is omitted
from the availability report; a source mentioned `a` times available and `m`
times missing with `a + m > 0` is reported as `(name, a, a + m)` with rate
exactly `a / (a + m) * 100`; a record whose mapping is absent, and an entry
name not in a record's mapping, contribute to neither count. -/
theorem avail_report_spec (logs : List Record) (evs : List (String × Bool)) (name : String)
    (_hev : availEvents logs = .ok evs) (hname : name ∈ fixedSources) :
    (availOf name evs + missingOf name evs = 0 →
        ∀ x ∈ availReport evs, x.1 ≠ name) ∧
    (0 < availOf name evs + missingOf name evs →
        (name, availOf name evs, availOf name evs + missingOf name evs,
          (availOf name evs : ℚ) /
            ((availOf name evs + missingOf name evs : Nat) : ℚ) * 100)
          ∈ availReport evs) ∧
    (∀ r : Record, rget r "data_availability" = none → recordAvailEvents r = .ok []) ∧
    (∀ kvs : List (String × JVal), name ∉ kvs.map (fun kv => kv.1) →
        availOf name (kvs.map (fun kv => (kv.1, truthy kv.2))) = 0 ∧
        missingOf name (kvs.map (fun kv => (kv.1, truthy kv.2))) = 0) := by
  refine ⟨?_, ?_, ?_, ?_⟩
  · intro h0 x hx hxname
    unfold availReport at hx
    obtain ⟨n, _, hfn⟩ := List.mem_filterMap.mp hx
    by_cases hpos : 0 < availOf n evs + missingOf n evs
    · rw [if_pos hpos] at hfn
      cases hfn
      have hn2 : n = name := hxname
      rw [hn2] at hpos
      omega
    · rw [if_neg hpos] at hfn
      cases hfn
  · intro hpos
    unfold availReport
    exact List.mem_filterMap.mpr ⟨name, hname, by rw [if_pos hpos]⟩
  · intro r hr
    unfold recordAvailEvents
    rw [hr]
  · intro kvs hnot
    constructor
    · unfold availOf
      rw [List.countP_map, List.countP_eq_zero]
      intro kv hkv hbad
      simp only [Function.comp] at hbad
      have h1 : kv.1 = name := by
        have := (Bool.and_eq_true _ _).mp hbad
        exact eq_of_beq this.1
      exact hnot (List.mem_map.mpr ⟨kv, hkv, h1⟩)
    · unfold missingOf
      rw [List.countP_map, List.countP_eq_zero]
      intro kv hkv hbad
      simp only [Function.comp] at hbad
      have h1 : kv.1 = name := by
        have := (Bool.and_eq_true _ _).mp hbad
        exact eq_of_beq this.1
      exact hnot (List.mem_map.mpr ⟨kv, hkv, h1⟩)

/-- Witness for `avail_report_spec`, the spec's own scenario: one record
whose `data_availability` is `{"order_data": true}` and no other mention of
`order_data` gives the report line `order_data: 1/1 available (100.0%)`. -/
theorem avail_report_witness :
    ("order_data", availOf "order_data" [("order_data", true)],
      availOf "order_data" [("order_data", true)] +
        missingOf "order_data" [("order_data", true)],
      (availOf "order_data" [("order_data", true)] : ℚ) /
        ((availOf "order_data" [("order_data", true)] +
          missingOf "order_data" [("order_data", true)] : Nat) : ℚ) * 100)
      ∈ availReport [("order_data", true)] :=
  ((avail_report_spec
      [[("data_availability", JVal.obj [("order_data", JVal.bool true)])]]
      [("order_data", true)] "order_data" rfl (by decide)).2.1 (by decide))

/-! ## C10 — display truncation -/

/-- Truncating a present string field through `log.get(k, d)[:budget]`. -/
theorem trunc_key (budget : Nat) (r : Record) (k d s q : String)
    (hs : rget r k = some (.str s))
    (htr : truncDisplay budget (rgetD r k (.str d)) = .ok q) :
    q = s.take budget ++ (if budget < s.length then "..." else "") := by
  unfold rgetD at htr
  rw [hs, Option.getD_some] at htr
  have h2 : Except.ok ((s.take budget) ++ (if budget < s.length then "..." else "")) =
      (Except.ok q : Except PyErr String) := by
    rw [← htr]
    rfl
  exact (Except.ok.inj h2).symm

/-- C10, amended. The recent view truncates `user_question` and
`ai_response` at 100 characters, the error view truncates `user_question`
at 80 characters, each appending an ellipsis exactly when the original
exceeds the budget; but the error view displays no `ai_response` text at
all (its entries are unchanged under any change of `ai_response`). -/
theorem display_truncation_spec (M : DTModel) :
    (∀ r en s, rget r "user_question" = some (.str s) → mkRecentEntry M r = .ok en →
        en.q = s.take 100 ++ (if 100 < s.length then "..." else "")) ∧
    (∀ r en s, rget r "ai_response" = some (.str s) → mkRecentEntry M r = .ok en →
        en.a = s.take 100 ++ (if 100 < s.length then "..." else "")) ∧
    (∀ r en s, rget r "user_question" = some (.str s) → mkErrorEntry M r = .ok en →
        en.q = s.take 80 ++ (if 80 < s.length then "..." else "")) ∧
    (∀ r₁ r₂, rget r₁ "timestamp" = rget r₂ "timestamp" →
        rget r₁ "user_question" = rget r₂ "user_question" →
        mkErrorEntry M r₁ = mkErrorEntry M r₂) := by
  refine ⟨?_, ?_, ?_, ?_⟩
  · intro r en s hs hen
    unfold mkRecentEntry at hen
    cases ht : fmtTimestamp M r with
    | error e =>
      rw [ht] at hen
      cases hen
    | ok t =>
      rw [ht] at hen
      cases hq : truncDisplay 100 (rgetD r "user_question" (JVal.str "No question")) with
      | error e =>
        rw [hq] at hen
        cases hen
      | ok q =>
        rw [hq] at hen
        cases ha : truncDisplay 100 (rgetD r "ai_response" (JVal.str "No response")) with
        | error e =>
          rw [ha] at hen
          cases hen
        | ok a =>
          rw [ha] at hen
          cases hen
          exact trunc_key 100 r "user_question" "No question" s q hs hq
  · intro r en s hs hen
    unfold mkRecentEntry at hen
    cases ht : fmtTimestamp M r with
    | error e =>
      rw [ht] at hen
      cases hen
    | ok t =>
      rw [ht] at hen
      cases hq : truncDisplay 100 (rgetD r "user_question" (JVal.str "No question")) with
      | error e =>
        rw [hq] at hen
        cases hen
      | ok q =>
        rw [hq] at hen
        cases ha : truncDisplay 100 (rgetD r "ai_response" (JVal.str "No response")) with
        | error e =>
          rw [ha] at hen
          cases hen
        | ok a =>
          rw [ha] at hen
          cases hen
          exact trunc_key 100 r "ai_response" "No response" s a hs ha
  · intro r en s hs hen
    unfold mkErrorEntry at hen
    cases ht : fmtTimestamp M r with
    | error e =>
      rw [ht] at hen
      cases hen
    | ok t =>
      rw [ht] at hen
      cases hq : truncDisplay 80 (rgetD r "user_question" (JVal.str "No question")) with
      | error e =>
        rw [hq] at hen
        cases hen
      | ok q =>
        rw [hq] at hen
        cases hen
        exact trunc_key 80 r "user_question" "No question" s q hs hq
  · intro r₁ r₂ hts hq
    unfold mkErrorEntry
    have h1 : fmtTimestamp M r₁ = fmtTimestamp M r₂ := by
      unfold fmtTimestamp rgetD
      rw [hts]
    have h2 : truncDisplay 80 (rgetD r₁ "user_question" (JVal.str "No question")) =
        truncDisplay 80 (rgetD r₂ "user_question" (JVal.str "No question")) := by
      unfold rgetD
      rw [hq]
    rw [h1, h2]

/-- Witness for `display_truncation_spec`: a short question passes through
untruncated and without ellipsis in the error view. -/
theorem display_truncation_witness :
    (⟨"Unknown", "hi"⟩ : ErrorEntry).q =
      "hi".take 80 ++ (if 80 < "hi".length then "..." else "") :=
  (display_truncation_spec dt0).2.2.1 [("user_question", JVal.str "hi")]
    ⟨"Unknown", "hi"⟩ "hi" rfl rfl

/-- C10, counterexample. Two records differing only in `ai_response`
(one of 81 characters, over the claimed 80-character budget) produce the
*same* error-view entry: the error view does not display (hence does not
truncate) `ai_response` at all, contrary to the claim. -/
theorem error_view_ignores_response :
    mkErrorEntry dt0 [("ai_response", JVal.str "AAAAAAAAAAAAAAAAAAAAAAAAAAAAAAAAAAAAAAAAAAAAAAAAAAAAAAAAAAAAAAAAAAAAAAAAAAAAAAAAA")] =
      mkErrorEntry dt0 [("ai_response", JVal.str "B")] ∧
    ("AAAAAAAAAAAAAAAAAAAAAAAAAAAAAAAAAAAAAAAAAAAAAAAAAAAAAAAAAAAAAAAAAAAAAAAAAAAAAAAAA" : String) ≠ "B" ∧
    80 < ("AAAAAAAAAAAAAAAAAAAAAAAAAAAAAAAAAAAAAAAAAAAAAAAAAAAAAAAAAAAAAAAAAAAAAAAAAAAAAAAAA" : String).length := by
  refine ⟨rfl, by decide, by decide⟩

/-! ## C1 — exception safety of the whole run -/

/-- An `Except` that is not an error is an `ok`. -/
theorem exists_ok_of_ne_error {α : Type} (e : Except PyErr α)
    (h : ∀ err, e ≠ .error err) : ∃ x, e = .ok x := by
  cases e with
  | ok x => exact ⟨x, rfl⟩
  | error err => exact absurd rfl (h err)

/-- Splitting `fieldOK` into its seven per-field conditions. -/
theorem fieldOK_parts (r : Record) (h : fieldOK r = true) :
    sessionOK r = true ∧
    numFieldOK (rget r "question_length") = true ∧
    numFieldOK (rget r "response_length") = true ∧
    availFieldOK (rget r "data_availability") = true ∧
    tsFieldOK (rget r "timestamp") = true ∧
    textFieldOK (rget r "user_question") = true ∧
    textFieldOK (rget r "ai_response") = true := by
  simpa [fieldOK, Bool.and_eq_true, and_assoc] using h

/-- Line 43 succeeds when every `session_id` is hashable. -/
theorem unique_sessions_ok (logs : List Record)
    (h : ∀ r ∈ logs, sessionOK r = true) :
    ∃ u, unique_sessions logs = .ok u := by
  unfold unique_sessions
  rw [if_pos ?hall]
  case hall =>
    rw [List.all_eq_true]
    intro x hx
    obtain ⟨r, hr, rfl⟩ := List.mem_map.mp hx
    exact h r hr
  exact ⟨_, rfl⟩

/-- One addend of the length sums succeeds on a numeric (or absent) field. -/
theorem asNum_ok_of_numFieldOK (k : String) (r : Record)
    (h : numFieldOK (rget r k) = true) :
    ∃ n, asNum (rgetD r k (.num 0)) = .ok n := by
  unfold rgetD
  cases hv : rget r k with
  | none => exact ⟨0, rfl⟩
  | some v =>
    rw [hv] at h
    cases v with
    | num n => exact ⟨n, rfl⟩
    | bool b => exact ⟨if b then 1 else 0, by cases b <;> rfl⟩
    | null => simp [numFieldOK] at h
    | str s => simp [numFieldOK] at h
    | arr xs => simp [numFieldOK] at h
    | obj kvs => simp [numFieldOK] at h

/-- The whole sum of a length field succeeds on well-typed records. -/
theorem sumField_ok (k : String) :
    ∀ logs : List Record, (∀ r ∈ logs, numFieldOK (rget r k) = true) →
      ∃ n, sumField k logs = .ok n := by
  intro logs
  induction logs with
  | nil => intro _; exact ⟨0, rfl⟩
  | cons r rs ih =>
    intro h
    obtain ⟨n, hn⟩ := asNum_ok_of_numFieldOK k r (h r (List.mem_cons_self r rs))
    obtain ⟨s, hs⟩ := ih (fun r' hr' => h r' (List.mem_cons_of_mem _ hr'))
    refine ⟨n + s, ?_⟩
    simp only [sumField]
    rw [hn, hs]

/-- An average of a length field succeeds on well-typed records. -/
theorem avgField_ok (k : String) (logs : List Record)
    (h : ∀ r ∈ logs, numFieldOK (rget r k) = true) :
    ∃ q, avgField k logs = .ok q := by
  obtain ⟨n, hn⟩ := sumField_ok k logs h
  refine ⟨if logs.length > 0 then (n : ℚ) / (logs.length : ℚ) else 0, ?_⟩
  unfold avgField
  rw [hn]

/-- The Counter loop body succeeds on one well-typed record. -/
theorem recordAvailEvents_ok (r : Record)
    (h : availFieldOK (rget r "data_availability") = true) :
    ∃ evs, recordAvailEvents r = .ok evs := by
  cases hv : rget r "data_availability" with
  | none => exact ⟨[], by simp [recordAvailEvents, hv]⟩
  | some v =>
    rw [hv] at h
    cases v with
    | obj kvs =>
      by_cases ht : truthy (JVal.obj kvs) = true
      · exact ⟨kvs.map (fun kv => (kv.1, truthy kv.2)), by simp [recordAvailEvents, hv, ht]⟩
      · exact ⟨[], by simp [recordAvailEvents, hv, ht]⟩
    | null => exact ⟨[], by simp [recordAvailEvents, hv, truthy]⟩
    | bool b =>
      have hb : b = false := by simpa [availFieldOK, truthy] using h
      exact ⟨[], by simp [recordAvailEvents, hv, truthy, hb]⟩
    | num n =>
      have hn : (n != 0) = false := by simpa [availFieldOK, truthy] using h
      exact ⟨[], by simp [recordAvailEvents, hv, truthy, hn]⟩
    | str s =>
      have hs : (s != "") = false := by simpa [availFieldOK, truthy] using h
      exact ⟨[], by simp [recordAvailEvents, hv, truthy, hs]⟩
    | arr xs =>
      have hx : xs.isEmpty = true := by simpa [availFieldOK, truthy] using h
      exact ⟨[], by simp [recordAvailEvents, hv, truthy, hx]⟩

/-- The whole Counter loop succeeds on well-typed records. -/
theorem availEvents_ok :
    ∀ logs : List Record, (∀ r ∈ logs, availFieldOK (rget r "data_availability") = true) →
      ∃ evs, availEvents logs = .ok evs := by
  intro logs
  induction logs with
  | nil => intro _; exact ⟨[], rfl⟩
  | cons r rs ih =>
    intro h
    obtain ⟨e, he⟩ := recordAvailEvents_ok r (h r (List.mem_cons_self r rs))
    obtain ⟨es, hes⟩ := ih (fun r' hr' => h r' (List.mem_cons_of_mem _ hr'))
    refine ⟨e ++ es, ?_⟩
    simp only [availEvents]
    rw [he, hes]

/-- Timestamp formatting succeeds on a string, list, or falsy (or absent)
timestamp. -/
theorem fmtTimestamp_ok (M : DTModel) (r : Record)
    (h : tsFieldOK (rget r "timestamp") = true) :
    ∃ t, fmtTimestamp M r = .ok t := by
  cases hv : rget r "timestamp" with
  | none =>
    cases hp : M.parse "Unknown" with
    | some d => exact ⟨M.fmtSecond d, by unfold fmtTimestamp rgetD; rw [hv]; simp [hp]⟩
    | none => exact ⟨"Unknown".take 19, by unfold fmtTimestamp rgetD; rw [hv]; simp [hp]⟩
  | some v =>
    rw [hv] at h
    cases v with
    | str s =>
      cases hp : M.parse s with
      | some d => exact ⟨M.fmtSecond d, by unfold fmtTimestamp rgetD; rw [hv]; simp [hp]⟩
      | none =>
        exact ⟨if (s != "") = true then s.take 19 else "Unknown",
          by unfold fmtTimestamp rgetD; rw [hv]; simp [hp]⟩
    | arr xs =>
      exact ⟨pyRepr (.arr (xs.take 19)), by unfold fmtTimestamp rgetD; rw [hv]; rfl⟩
    | null => exact ⟨"Unknown", by unfold fmtTimestamp rgetD; rw [hv]; rfl⟩
    | bool b =>
      have hb : b = false := by simpa [tsFieldOK, truthy] using h
      exact ⟨"Unknown", by unfold fmtTimestamp rgetD; rw [hv, hb]; rfl⟩
    | num n =>
      have hn : (n != 0) = false := by simpa [tsFieldOK, truthy] using h
      exact ⟨"Unknown", by unfold fmtTimestamp rgetD; rw [hv]; simp [truthy, hn]⟩
    | obj kvs =>
      have hk : kvs.isEmpty = true := by simpa [tsFieldOK, truthy] using h
      exact ⟨"Unknown", by unfold fmtTimestamp rgetD; rw [hv]; simp [truthy, hk]⟩

/-- Question/response truncation succeeds on a sliceable (or absent) field. -/
theorem truncDisplay_ok (budget : Nat) (r : Record) (k d : String)
    (h : textFieldOK (rget r k) = true) :
    ∃ s, truncDisplay budget (rgetD r k (.str d)) = .ok s := by
  unfold rgetD
  cases hv : rget r k with
  | none => exact ⟨_, rfl⟩
  | some v =>
    rw [hv] at h
    cases v with
    | str s => exact ⟨_, rfl⟩
    | arr xs => exact ⟨_, rfl⟩
    | null => simp [textFieldOK] at h
    | bool b => simp [textFieldOK] at h
    | num n => simp [textFieldOK] at h
    | obj kvs => simp [textFieldOK] at h

/-- One recent-view entry succeeds on a well-typed record. -/
theorem mkRecentEntry_ok (M : DTModel) (r : Record) (h : fieldOK r = true) :
    ∃ en, mkRecentEntry M r = .ok en := by
  obtain ⟨-, -, -, -, h5, h6, h7⟩ := fieldOK_parts r h
  obtain ⟨t, ht⟩ := fmtTimestamp_ok M r h5
  obtain ⟨q, hq⟩ := truncDisplay_ok 100 r "user_question" "No question" h6
  obtain ⟨a, ha⟩ := truncDisplay_ok 100 r "ai_response" "No response" h7
  refine ⟨⟨t, q, a, isErrorRec r⟩, ?_⟩
  unfold mkRecentEntry
  rw [ht, hq, ha]

/-- The recent-conversations loop succeeds on well-typed records. -/
theorem recentEntries_ok (M : DTModel) :
    ∀ rs : List Record, (∀ r ∈ rs, fieldOK r = true) →
      ∃ ens, recentEntries M rs = .ok ens := by
  intro rs
  induction rs with
  | nil => intro _; exact ⟨[], rfl⟩
  | cons r rs ih =>
    intro h
    obtain ⟨en, hen⟩ := mkRecentEntry_ok M r (h r (List.mem_cons_self r rs))
    obtain ⟨ens, hens⟩ := ih (fun r' hr' => h r' (List.mem_cons_of_mem _ hr'))
    refine ⟨en :: ens, ?_⟩
    simp only [recentEntries]
    rw [hen, hens]

/-- One error-view entry succeeds on a well-typed record. -/
theorem mkErrorEntry_ok (M : DTModel) (r : Record) (h : fieldOK r = true) :
    ∃ en, mkErrorEntry M r = .ok en := by
  obtain ⟨-, -, -, -, h5, h6, -⟩ := fieldOK_parts r h
  obtain ⟨t, ht⟩ := fmtTimestamp_ok M r h5
  obtain ⟨q, hq⟩ := truncDisplay_ok 80 r "user_question" "No question" h6
  refine ⟨⟨t, q⟩, ?_⟩
  unfold mkErrorEntry
  rw [ht, hq]

/-- The error-analysis loop succeeds on well-typed records. -/
theorem errorEntries_ok (M : DTModel) :
    ∀ rs : List Record, (∀ r ∈ rs, fieldOK r = true) →
      ∃ ens, errorEntries M rs = .ok ens := by
  intro rs
  induction rs with
  | nil => intro _; exact ⟨[], rfl⟩
  | cons r rs ih =>
    intro h
    obtain ⟨en, hen⟩ := mkErrorEntry_ok M r (h r (List.mem_cons_self r rs))
    obtain ⟨ens, hens⟩ := ih (fun r' hr' => h r' (List.mem_cons_of_mem _ hr'))
    refine ⟨en :: ens, ?_⟩
    simp only [errorEntries]
    rw [hen, hens]

/-- The error-analysis block succeeds on well-typed records. -/
theorem errorBlock_ok (M : DTModel) (logs : List Record)
    (h : ∀ r ∈ logs, fieldOK r = true) :
    ∃ eb, errorBlock M logs = .ok eb := by
  unfold errorBlock
  by_cases hc : error_count logs > 0
  · obtain ⟨es, hes⟩ := errorEntries_ok M (error_logs logs)
      (fun r hr => h r (List.mem_of_mem_filter hr))
    rw [if_pos hc, hes]
    exact ⟨some es, rfl⟩
  · rw [if_neg hc]
    exact ⟨none, rfl⟩

/-- Every record of the recent view is a loaded record. -/
theorem recentView_subset (logs : List Record) :
    ∀ r ∈ recentView logs, r ∈ logs := by
  intro r hr
  rw [recentView, List.mem_reverse] at hr
  unfold recent_logs at hr
  split at hr
  · exact List.drop_subset _ _ hr
  · exact hr

/-- C1, amended. Once at least one valid record is loaded, no downstream
stage of `view_logs` raises — *provided* every present field is well-typed
(hashable `session_id`, numeric lengths, dict for a truthy
`data_availability`, string/list/falsy `timestamp`, string/list
`user_question` and `ai_response`).  Absent fields and unparsable timestamp
strings are always tolerated, but a wrong-*typed* field can abort the run
(see the counterexample), so the claim's tolerance of arbitrary wrong types
is false. -/
theorem view_logs_ok (M : DTModel) (logs : List Record)
    (h : ∀ r ∈ logs, fieldOK r = true) :
    ∃ rep, view_logs M logs = .ok rep := by
  obtain ⟨u, hu⟩ := unique_sessions_ok logs (fun r hr => (fieldOK_parts r (h r hr)).1)
  obtain ⟨aq, haq⟩ := avgField_ok "question_length" logs
    (fun r hr => (fieldOK_parts r (h r hr)).2.1)
  obtain ⟨ar, har⟩ := avgField_ok "response_length" logs
    (fun r hr => (fieldOK_parts r (h r hr)).2.2.1)
  obtain ⟨evs, hevs⟩ := availEvents_ok logs
    (fun r hr => (fieldOK_parts r (h r hr)).2.2.2.1)
  obtain ⟨recent, hrec⟩ := recentEntries_ok M (recentView logs)
    (fun r hr => h r (recentView_subset logs r hr))
  obtain ⟨eb, heb⟩ := errorBlock_ok M logs h
  refine ⟨{ total := logs.length, uniqueSessions := u, errors := error_count logs,
            errorRate := error_rate logs, dateRange := date_range M logs,
            avgQ := aq, avgR := ar, avail := availReport evs, recent := recent,
            errBlock := eb, exported := exportStage logs }, ?_⟩
  unfold view_logs
  rw [hu, haq, har, hevs, hrec, heb]

/-- Witness for `view_logs_ok`: a fully populated well-typed record runs the
whole pipeline to completion. -/
theorem view_logs_ok_witness :
    ∃ rep, view_logs dt0
      [[("session_id", JVal.str "s"), ("timestamp", JVal.str "t"),
        ("error_occurred", JVal.bool true), ("question_length", JVal.num 4),
        ("response_length", JVal.num 7), ("user_question", JVal.str "hi"),
        ("ai_response", JVal.str "ok"),
        ("data_availability", JVal.obj [("order_data", JVal.bool true)])]] =
      .ok rep :=
  view_logs_ok dt0 _ (by decide)

/-- C1, counterexample. The Loader accepts the line
`{"question_length": "ten"}` (valid JSON), yet the average-length
computation at line 62 adds the string to an int and raises an uncaught
`TypeError`, aborting the run — the downstream stages do not tolerate a
wrong-typed field. -/
theorem view_logs_aborts_on_wrong_type :
    view_logs dt0 [[("question_length", JVal.str "ten")]] = .error .typeError := rfl
